import Mathlib

/-!
# FastAddressSanitizer.h: the globals metadata store and the pass entry points

A shallow embedding of `include/llvm/Transforms/Instrumentation/FastAddressSanitizer.h`.
The header defines three inline member functions (`FastLocationMetadata::empty`,
`FastGlobalsMetadata::get`, the two `FastGlobalsMetadata::invalidate` overloads), the
default member initialisers of the two record types and the default arguments of the
four pass entry points. The LLVM support types the header uses (`StringRef`, `DenseMap`,
`Module`, ...) are declared elsewhere and are modelled here by small executable stand-ins.
-/

namespace llvm

/-! ## Support types the header takes from LLVM -/

/-- Modelled from the spec: `StringRef` (declared in LLVM's ADT headers, not in this
header) is a "text or empty" value; `Data` is the referenced character sequence and the
default-constructed reference is the empty text. -/
structure StringRef where
  Data : String := ""
  deriving DecidableEq, Repr

/-- The number of characters referenced (`StringRef::size`). -/
def StringRef.Length (s : StringRef) : Nat := s.Data.length

/-- The check `StringRef::empty`: the length is zero. -/
def StringRef.empty (s : StringRef) : Bool := s.Length == 0

/-- Modelled from the spec: a `GlobalVariable *` is used only as a "global-variable
identity"; the pointer is represented by the number `id`. -/
structure GlobalVariable where
  id : Nat
  deriving DecidableEq, Repr

/-- Modelled from the spec: `DenseMap` (declared in LLVM's ADT headers) is a "mapping from
global-variable identity to exactly one" value with "keys unique": a list of key/value
buckets in which no key occurs twice. -/
structure DenseMap (K V : Type) where
  Buckets : List (K × V)
  keysUnique : (Buckets.map Prod.fst).Nodup

namespace DenseMap

variable {K V : Type}

/-- The map a default-constructed `DenseMap` holds: no bucket. -/
def empty : DenseMap K V := ⟨[], List.nodup_nil⟩

/-- The lookup `DenseMap::find`: the bucket of `k`, or `none` for the `end()` iterator. -/
def find [DecidableEq K] (m : DenseMap K V) (k : K) : Option (K × V) :=
  m.Buckets.find? (fun b => decide (b.1 = k))

/-- Buckets left after removing every bucket of key `k`. -/
def eraseBuckets [DecidableEq K] (k : K) (bs : List (K × V)) : List (K × V) :=
  bs.filter (fun b => !decide (b.1 = k))

/-- The removal `DenseMap::erase(k)`. -/
def erase [DecidableEq K] (m : DenseMap K V) (k : K) : DenseMap K V :=
  ⟨eraseBuckets k m.Buckets,
    m.keysUnique.sublist ((List.filter_sublist m.Buckets).map Prod.fst)⟩

/-- The assignment `m[k] = v`: `k` is mapped to `v`, replacing the bucket `k` had. -/
def set [DecidableEq K] (m : DenseMap K V) (k : K) (v : V) : DenseMap K V :=
  ⟨(k, v) :: eraseBuckets k m.Buckets, by
    rw [List.map_cons, List.nodup_cons]
    refine ⟨?_, m.keysUnique.sublist ((List.filter_sublist m.Buckets).map Prod.fst)⟩
    intro h
    obtain ⟨b, hb, hk⟩ := List.mem_map.1 h
    have hf := (List.mem_filter.1 hb).2
    simp [hk] at hf⟩

end DenseMap

/-! ## The records of the header -/

/-- The C++ type `int` of the fields `LineNo` and `ColumnNo`: a signed 32-bit integer, a
value between -2^31 and 2^31 - 1. -/
structure CInt where
  val : Int
  inRange : -2147483648 ≤ val ∧ val < 2147483648
  deriving DecidableEq, Repr

/-- The conversion of an integer to `int`: the value is reduced modulo 2^32 into the range
of the type; a value already in the range is kept. -/
def CInt.ofInt (i : Int) : CInt :=
  ⟨(i + 2147483648) % 4294967296 - 2147483648, by omega⟩

instance (n : Nat) : OfNat CInt n := ⟨CInt.ofInt n⟩

/-- Frontend-provided metadata for source location. `LineNo` and `ColumnNo` are C++ `int`
fields, signed; no arithmetic is done on them in the header. -/
structure FastLocationMetadata where
  Filename : StringRef := {}
  LineNo : CInt := 0
  ColumnNo : CInt := 0
  deriving DecidableEq, Repr

/-- The member `FastLocationMetadata::empty`: `return Filename.empty();`. -/
def FastLocationMetadata.empty (self : FastLocationMetadata) : Bool :=
  self.Filename.empty

/-- The record `FastGlobalsMetadata::Entry`, with its default member initialisers. -/
structure FastGlobalsMetadata.Entry where
  SourceLoc : FastLocationMetadata := {}
  Name : StringRef := {}
  IsDynInit : Bool := false
  IsBlacklisted : Bool := false
  deriving DecidableEq, Repr

/-- Frontend-provided metadata for global variables: the private member `Entries`. The
default constructor leaves the map empty. -/
structure FastGlobalsMetadata where
  Entries : DenseMap GlobalVariable FastGlobalsMetadata.Entry := DenseMap.empty

/-- Modelled from the spec: the analysis-identity key of the pass manager (`AnalysisKey`,
declared in `llvm/IR/PassManager.h`). -/
structure AnalysisKey where
  id : Nat
  deriving DecidableEq, Repr

/-- Modelled from the spec: `PreservedAnalyses` (declared in `llvm/IR/PassManager.h`), the
"reported invalidation set" of a pass run: the analyses that remain valid. The empty list
is "nothing preserved". -/
structure PreservedAnalyses where
  PreservedIDs : List AnalysisKey := []
  deriving DecidableEq, Repr

/-- Modelled from the spec: `Function` (declared in `llvm/IR/Function.h`); only its identity
is used here. -/
structure Function where
  id : Nat
  deriving DecidableEq, Repr

/-- Modelled from the spec: the `Invalidator` handed to `invalidate` by an analysis manager
(`ModuleAnalysisManager::Invalidator` and `FunctionAnalysisManager::Invalidator`, declared
in `llvm/IR/PassManager.h`): the invalidation verdicts it has cached so far. -/
structure Invalidator where
  IsResultInvalidated : List (AnalysisKey × Bool) := []
  deriving DecidableEq, Repr

/-- Modelled from the spec: one record of the module-level annotation list, of the "fixed
per-entry record shape: [location, name, dynamic-initializer flag, exclusion flag]", "keyed
by the annotated global". A field that is missing or unparseable is `none`. -/
structure GlobalAnnotation where
  Global : GlobalVariable
  Location : Option FastLocationMetadata := none
  Name : Option StringRef := none
  IsDynInit : Option Bool := none
  IsBlacklisted : Option Bool := none
  deriving DecidableEq, Repr

/-- Modelled from the spec: a global variable declaration of a module: its identity, the
size of its object, and whether it carries "special linkage/section semantics that forbid
relocation". -/
structure GlobalDecl where
  Global : GlobalVariable
  Size : Nat
  FixedAddress : Bool := false
  deriving DecidableEq, Repr

/-- Modelled from the spec: `Module` (declared in `llvm/IR/Module.h`): the "global variable
declarations with optional frontend-attached annotation metadata in a named, module-level
list"; `AsanGlobals` is `none` when the module has no such list. -/
structure Module where
  Globals : List GlobalDecl := []
  AsanGlobals : Option (List GlobalAnnotation) := none
  deriving DecidableEq, Repr

namespace FastGlobalsMetadata

/-- Returns metadata entry for a given global:
`auto Pos = Entries.find(G); return (Pos != Entries.end()) ? Pos->second : Entry();`. -/
def get (self : FastGlobalsMetadata) (G : GlobalVariable) : Entry :=
  let Pos := self.Entries.find G
  match Pos with
  | some bucket => bucket.2
  | none => {}

/-- Handle invalidation from the pass manager, module overload: `return false;`. The
member is not `const`, so the store after the call is returned next to the result. -/
def invalidate (self : FastGlobalsMetadata) (_M : Module) (_PA : PreservedAnalyses)
    (_Inv : Invalidator) : Bool × FastGlobalsMetadata :=
  (false, self)

/-- Handle invalidation from the pass manager, function overload: `return false;`. -/
def invalidateFunction (self : FastGlobalsMetadata) (_F : Function)
    (_PA : PreservedAnalyses) (_Inv : Invalidator) : Bool × FastGlobalsMetadata :=
  (false, self)

/-- A call of one of the public operations of a constructed store. -/
inductive Call where
  | get (G : GlobalVariable)
  | invalidate (M : Module) (PA : PreservedAnalyses) (Inv : Invalidator)
  | invalidateFunction (F : Function) (PA : PreservedAnalyses) (Inv : Invalidator)

/-- What a call hands back to its caller. -/
inductive Returned where
  | entry (E : Entry)
  | flag (b : Bool)
  deriving DecidableEq, Repr

/-- One call on the store `self`: the value returned and the store after the call. -/
def Call.exec (self : FastGlobalsMetadata) : Call → Returned × FastGlobalsMetadata
  | .get G => (.entry (self.get G), self)
  | .invalidate M PA Inv => ((self.invalidate M PA Inv).map Returned.flag id)
  | .invalidateFunction F PA Inv => ((self.invalidateFunction F PA Inv).map Returned.flag id)

/-- A finite sequence of calls, each made on the store the previous one left: the values
returned, in order, and the final store. -/
def execAll (self : FastGlobalsMetadata) : List Call → List Returned × FastGlobalsMetadata
  | [] => ([], self)
  | c :: cs =>
    let r := c.exec self
    let rest := execAll r.2 cs
    (r.1 :: rest.1, rest.2)

/-- The store `self` with `G` mapped to `E` (every other global as in `self`). -/
def withEntry (self : FastGlobalsMetadata) (G : GlobalVariable) (E : Entry) :
    FastGlobalsMetadata :=
  ⟨self.Entries.set G E⟩

/-- The store `self` with `G` absent (every other global as in `self`). -/
def without (self : FastGlobalsMetadata) (G : GlobalVariable) : FastGlobalsMetadata :=
  ⟨self.Entries.erase G⟩

end FastGlobalsMetadata

/-- The parameter list of the constructor `FastAddressSanitizerPass(...)`, each parameter
with the default argument the header declares. -/
structure FastAddressSanitizerPass.Args where
  CompileKernel : Bool := false
  Recover : Bool := false
  UseAfterScope : Bool := false
  deriving DecidableEq, Repr

/-- The parameter list of the constructor `ModuleFastAddressSanitizerPass(...)`, each
parameter with the default argument the header declares. -/
structure ModuleFastAddressSanitizerPass.Args where
  CompileKernel : Bool := false
  Recover : Bool := false
  UseGlobalGC : Bool := true
  UseOdrIndicator : Bool := false
  deriving DecidableEq, Repr

/-- The parameter list of `createFastAddressSanitizerFunctionPass(...)`, each parameter
with the default argument the header declares. -/
structure createFastAddressSanitizerFunctionPass.Args where
  CompileKernel : Bool := false
  Recover : Bool := false
  UseAfterScope : Bool := false
  deriving DecidableEq, Repr

/-- The parameter list of `createModuleFastAddressSanitizerLegacyPassPass(...)`, each
parameter with the default argument the header declares. -/
structure createModuleFastAddressSanitizerLegacyPassPass.Args where
  CompileKernel : Bool := false
  Recover : Bool := false
  UseGlobalsGC : Bool := true
  UseOdrIndicator : Bool := true
  deriving DecidableEq, Repr

/-- The private members of `ModuleFastAddressSanitizerPass`. -/
structure ModuleFastAddressSanitizerPass where
  CompileKernel : Bool
  Recover : Bool
  UseGlobalGC : Bool
  UseOdrIndicator : Bool
  deriving DecidableEq, Repr

namespace ModuleFastAddressSanitizerPass

end ModuleFastAddressSanitizerPass

/-! ## Example inputs -/

/-- An example store: global 1 has a full entry with the exclusion flag set, global 2 an
entry with only a name. -/
def exampleStore : FastGlobalsMetadata :=
  (({} : FastGlobalsMetadata).withEntry ⟨1⟩
      { SourceLoc := { Filename := ⟨"a.c"⟩, LineNo := 3, ColumnNo := 5 }
        Name := ⟨"g"⟩
        IsDynInit := true
        IsBlacklisted := true }).withEntry ⟨2⟩ { Name := ⟨"h"⟩ }

namespace DenseMap

variable {K V : Type} [DecidableEq K]

theorem find_eq_none_iff (m : DenseMap K V) (k : K) :
    m.find k = none ↔ ∀ v, (k, v) ∉ m.Buckets := by
  unfold find
  rw [List.find?_eq_none]
  constructor
  · intro h v hv
    exact h (k, v) hv (by simp)
  · intro h b hb hk
    have hk' : b.1 = k := by simpa using hk
    exact h b.2 (by rw [← hk']; exact hb)

theorem find?_of_mem_of_nodup (k : K) (v : V) :
    ∀ bs : List (K × V), (bs.map Prod.fst).Nodup → (k, v) ∈ bs →
      bs.find? (fun b => decide (b.1 = k)) = some (k, v)
  | [], _, h => by simp at h
  | b :: bs, hnd, h => by
    rw [List.map_cons, List.nodup_cons] at hnd
    rcases List.mem_cons.1 h with h | h
    · subst h
      simp
    · have hne : b.1 ≠ k := by
        intro hk
        exact hnd.1 (hk ▸ List.mem_map.2 ⟨(k, v), h, rfl⟩)
      rw [List.find?_cons_of_neg _ (by simpa using hne)]
      exact find?_of_mem_of_nodup k v bs hnd.2 h

theorem find_of_mem (m : DenseMap K V) (k : K) (v : V) (h : (k, v) ∈ m.Buckets) :
    m.find k = some (k, v) :=
  find?_of_mem_of_nodup k v m.Buckets m.keysUnique h

theorem find?_eraseBuckets_self (k : K) (bs : List (K × V)) :
    (eraseBuckets k bs).find? (fun b => decide (b.1 = k)) = none := by
  rw [List.find?_eq_none]
  intro b hb
  have := (List.mem_filter.1 hb).2
  simpa using this

theorem find?_eraseBuckets_of_ne (k k' : K) (hne : k' ≠ k) :
    ∀ bs : List (K × V), (eraseBuckets k bs).find? (fun b => decide (b.1 = k')) =
      bs.find? (fun b => decide (b.1 = k'))
  | [] => rfl
  | b :: bs => by
    have ih := find?_eraseBuckets_of_ne k k' hne bs
    unfold eraseBuckets at ih ⊢
    by_cases hb : b.1 = k
    · have hb' : ¬ b.1 = k' := fun h => hne (h.symm.trans hb)
      rw [List.filter_cons_of_neg (by simpa using hb),
        List.find?_cons_of_neg _ (by simpa using hb')]
      exact ih
    · rw [List.filter_cons_of_pos (by simpa using hb)]
      by_cases hb' : b.1 = k'
      · rw [List.find?_cons_of_pos _ (by simpa using hb'),
          List.find?_cons_of_pos _ (by simpa using hb')]
      · rw [List.find?_cons_of_neg _ (by simpa using hb'),
          List.find?_cons_of_neg _ (by simpa using hb')]
        exact ih

theorem find_erase_self (m : DenseMap K V) (k : K) : (m.erase k).find k = none :=
  find?_eraseBuckets_self k m.Buckets

theorem find_erase_of_ne (m : DenseMap K V) (k k' : K) (hne : k' ≠ k) :
    (m.erase k).find k' = m.find k' :=
  find?_eraseBuckets_of_ne k k' hne m.Buckets

theorem find_set_self (m : DenseMap K V) (k : K) (v : V) :
    (m.set k v).find k = some (k, v) := by
  simp [find, set]

theorem find_set_of_ne (m : DenseMap K V) (k k' : K) (v : V) (hne : k' ≠ k) :
    (m.set k v).find k' = m.find k' := by
  have hne' : ¬ k = k' := fun h => hne h.symm
  simp only [find, set]
  rw [List.find?_cons_of_neg _ (by simpa using hne')]
  exact find?_eraseBuckets_of_ne k k' hne m.Buckets

end DenseMap

/-! ## Lemmas on `get` -/

namespace FastGlobalsMetadata

theorem get_of_find_none (S : FastGlobalsMetadata) (G : GlobalVariable)
    (h : S.Entries.find G = none) : S.get G = {} := by
  simp [get, h]

theorem get_of_find_some (S : FastGlobalsMetadata) (G : GlobalVariable)
    (b : GlobalVariable × Entry) (h : S.Entries.find G = some b) : S.get G = b.2 := by
  simp [get, h]

theorem get_eq_of_find_eq (S T : FastGlobalsMetadata) (G : GlobalVariable)
    (h : S.Entries.find G = T.Entries.find G) : S.get G = T.get G := by
  simp [get, h]

theorem get_withEntry_self (S : FastGlobalsMetadata) (G : GlobalVariable) (E : Entry) :
    (S.withEntry G E).get G = E :=
  get_of_find_some _ G (G, E) (DenseMap.find_set_self S.Entries G E)

theorem get_withEntry_of_ne (S : FastGlobalsMetadata) (G H : GlobalVariable) (E : Entry)
    (hne : H ≠ G) : (S.withEntry G E).get H = S.get H :=
  get_eq_of_find_eq _ S H (DenseMap.find_set_of_ne S.Entries G H E hne)

theorem get_without_self (S : FastGlobalsMetadata) (G : GlobalVariable) :
    (S.without G).get G = {} :=
  get_of_find_none _ G (DenseMap.find_erase_self S.Entries G)

theorem get_without_of_ne (S : FastGlobalsMetadata) (G H : GlobalVariable) (hne : H ≠ G) :
    (S.without G).get H = S.get H :=
  get_eq_of_find_eq _ S H (DenseMap.find_erase_of_ne S.Entries G H hne)

theorem execAll_store (calls : List Call) :
    ∀ S : FastGlobalsMetadata, (S.execAll calls).2 = S := by
  induction calls with
  | nil => intro S; rfl
  | cons c cs ih =>
    intro S
    have hc : (c.exec S).2 = S := by cases c <;> rfl
    show (execAll (c.exec S).2 cs).2 = S
    rw [hc]
    exact ih S

end FastGlobalsMetadata

/-! ## Lemmas on the redzone size -/

namespace ModuleFastAddressSanitizerPass

end ModuleFastAddressSanitizerPass

/-! ## The claims -/

/-- C1: for every store and every global that has no bucket in the entry map, `get` returns
the all-default entry (empty filename, line 0, column 0, empty name, both flags false);
this is so for every global of the default-constructed store; `get` is total, it has no
failure result. -/
theorem C1_get_absent_is_default :
    (∀ (S : FastGlobalsMetadata) (G : GlobalVariable),
      (∀ E, (G, E) ∉ S.Entries.Buckets) →
        S.get G =
          { SourceLoc := { Filename := ⟨""⟩, LineNo := 0, ColumnNo := 0 }
            Name := ⟨""⟩
            IsDynInit := false
            IsBlacklisted := false }) ∧
    (∀ G : GlobalVariable,
      ({} : FastGlobalsMetadata).get G =
        { SourceLoc := { Filename := ⟨""⟩, LineNo := 0, ColumnNo := 0 }
          Name := ⟨""⟩
          IsDynInit := false
          IsBlacklisted := false }) := by
  constructor
  · intro S G h
    exact FastGlobalsMetadata.get_of_find_none S G ((DenseMap.find_eq_none_iff _ G).2 h)
  · intro G
    rfl

/-- Witness of C1: global 7 has no bucket in the example store, and `get` gives the
all-default entry for it. -/
theorem C1_get_absent_is_default_witness :
    (∀ E, ((⟨7⟩ : GlobalVariable), E) ∉ exampleStore.Entries.Buckets) ∧
    exampleStore.get ⟨7⟩ =
      { SourceLoc := { Filename := ⟨""⟩, LineNo := 0, ColumnNo := 0 }
        Name := ⟨""⟩
        IsDynInit := false
        IsBlacklisted := false } :=
  have h : ∀ E, ((⟨7⟩ : GlobalVariable), E) ∉ exampleStore.Entries.Buckets := by
    intro E hE
    simp [exampleStore, FastGlobalsMetadata.withEntry, DenseMap.set, DenseMap.eraseBuckets,
      DenseMap.empty] at hE
  ⟨h, C1_get_absent_is_default.1 exampleStore ⟨7⟩ h⟩

/-- C2: for every store and every global `G` with a bucket `(G, E)` in the entry map,
`get G` is exactly `E`, all four fields unchanged (so a set exclusion flag is returned set);
`E` is the only entry of `G`; and mapping another global `H` to any entry, or removing
`H`, leaves `get G` unchanged. -/
theorem C2_get_present_is_entry (S : FastGlobalsMetadata) (G : GlobalVariable)
    (E : FastGlobalsMetadata.Entry) (h : (G, E) ∈ S.Entries.Buckets) :
    S.get G = E ∧
    (S.get G).SourceLoc = E.SourceLoc ∧ (S.get G).Name = E.Name ∧
    (S.get G).IsDynInit = E.IsDynInit ∧ (S.get G).IsBlacklisted = E.IsBlacklisted ∧
    (E.IsBlacklisted = true → (S.get G).IsBlacklisted = true) ∧
    (∀ E', (G, E') ∈ S.Entries.Buckets → E' = E) ∧
    (∀ (H : GlobalVariable) (E' : FastGlobalsMetadata.Entry), H ≠ G →
      (S.withEntry H E').get G = E ∧ (S.without H).get G = E) := by
  have hget : ∀ E', (G, E') ∈ S.Entries.Buckets → S.get G = E' := fun E' h' =>
    FastGlobalsMetadata.get_of_find_some S G (G, E') (DenseMap.find_of_mem S.Entries G E' h')
  have hE := hget E h
  refine ⟨hE, by rw [hE], by rw [hE], by rw [hE], by rw [hE], ?_, ?_, ?_⟩
  · intro hb
    rw [hE]
    exact hb
  · intro E' h'
    rw [← hget E' h', hE]
  · intro H E' hne
    have hne' : G ≠ H := fun e => hne e.symm
    exact ⟨(FastGlobalsMetadata.get_withEntry_of_ne S H G E' hne').trans hE,
      (FastGlobalsMetadata.get_without_of_ne S H G hne').trans hE⟩

/-- Witness of C2: in the example store global 1 has the entry with the exclusion flag
set, and `get` returns that entry. -/
theorem C2_get_present_is_entry_witness :
    ((⟨1⟩ : GlobalVariable),
        ({ SourceLoc := { Filename := ⟨"a.c"⟩, LineNo := 3, ColumnNo := 5 }
           Name := ⟨"g"⟩
           IsDynInit := true
           IsBlacklisted := true } : FastGlobalsMetadata.Entry)) ∈
      exampleStore.Entries.Buckets ∧
    exampleStore.get ⟨1⟩ =
      { SourceLoc := { Filename := ⟨"a.c"⟩, LineNo := 3, ColumnNo := 5 }
        Name := ⟨"g"⟩
        IsDynInit := true
        IsBlacklisted := true } ∧
    (exampleStore.get ⟨1⟩).IsBlacklisted = true :=
  have h : ((⟨1⟩ : GlobalVariable),
        ({ SourceLoc := { Filename := ⟨"a.c"⟩, LineNo := 3, ColumnNo := 5 }
           Name := ⟨"g"⟩
           IsDynInit := true
           IsBlacklisted := true } : FastGlobalsMetadata.Entry)) ∈
      exampleStore.Entries.Buckets := by
    simp [exampleStore, FastGlobalsMetadata.withEntry, DenseMap.set, DenseMap.eraseBuckets,
      DenseMap.empty]
  have r := C2_get_present_is_entry exampleStore ⟨1⟩ _ h
  ⟨h, r.1, r.2.2.2.2.2.1 rfl⟩

/-- C3: both overloads of `invalidate` return false, for every store, module or function,
set of preserved analyses (the empty set included) and invalidator. -/
theorem C3_invalidate_declines (S : FastGlobalsMetadata) (M : Module) (F : Function)
    (PA : PreservedAnalyses) (Inv : Invalidator) :
    (S.invalidate M PA Inv).1 = false ∧ (S.invalidateFunction F PA Inv).1 = false ∧
    (S.invalidate M { PreservedIDs := [] } Inv).1 = false ∧
    (S.invalidateFunction F { PreservedIDs := [] } Inv).1 = false :=
  ⟨rfl, rfl, rfl, rfl⟩

/-- C4: after every finite sequence of calls of `get` and of the two `invalidate`
overloads on a store `S`, the store is `S` again: the entry map is unchanged and `get`
returns for every global what it returned before the sequence. -/
theorem C4_store_never_mutated (S : FastGlobalsMetadata)
    (calls : List FastGlobalsMetadata.Call) :
    (S.execAll calls).2 = S ∧
    (S.execAll calls).2.Entries.Buckets = S.Entries.Buckets ∧
    (∀ G : GlobalVariable, (S.execAll calls).2.get G = S.get G) := by
  have h := FastGlobalsMetadata.execAll_store calls S
  refine ⟨h, by rw [h], ?_⟩
  intro G
  rw [h]

/-- C5: a store with `G` absent and the same store with `G` mapped to the
default-constructed entry give the same `get` result for every global `H`. -/
theorem C5_default_entry_is_absent (S : FastGlobalsMetadata) (G H : GlobalVariable) :
    (S.without G).get H = (S.withEntry G {}).get H := by
  by_cases hne : H = G
  · subst hne
    rw [FastGlobalsMetadata.get_without_self, FastGlobalsMetadata.get_withEntry_self]
  · rw [FastGlobalsMetadata.get_without_of_ne S G H hne,
      FastGlobalsMetadata.get_withEntry_of_ne S G H {} hne]

/-- C6: `empty` is true exactly when `Filename` is the empty text, whatever `LineNo` and
`ColumnNo` are: an empty filename with any line and column is empty, a filename with line
and column 0 is empty only if it is the empty text, and the default-constructed record is
empty. -/
theorem C6_empty_iff_filename_empty :
    (∀ L : FastLocationMetadata, L.empty = true ↔ L.Filename = ⟨""⟩) ∧
    (∀ (f : StringRef) (l c l' c' : CInt),
      FastLocationMetadata.empty ⟨f, l, c⟩ = FastLocationMetadata.empty ⟨f, l', c'⟩) ∧
    (∀ l c : CInt, FastLocationMetadata.empty ⟨⟨""⟩, l, c⟩ = true) ∧
    (∀ f : StringRef, FastLocationMetadata.empty ⟨f, 0, 0⟩ = false ↔ f ≠ ⟨""⟩) ∧
    FastLocationMetadata.empty {} = true := by
  have key : ∀ f : StringRef, f.empty = true ↔ f = ⟨""⟩ := by
    intro f
    cases f with
    | mk d =>
      simp only [StringRef.empty, StringRef.Length, beq_iff_eq, StringRef.mk.injEq]
      constructor
      · intro h
        exact String.ext (List.length_eq_zero.1 h)
      · intro h
        rw [h]
        rfl
  refine ⟨fun L => key L.Filename, fun _ _ _ _ _ => rfl, fun _ _ => rfl, ?_, rfl⟩
  intro f
  show f.empty = false ↔ f ≠ ⟨""⟩
  rw [Ne, ← key f]
  simp

/-- C7, as the code has it: the line and the column of the default-constructed record are
0, so non-negative, and so are those of the source location `get` returns for a global
without an entry, in every store; the fields are signed 32-bit: the line and the column of
every record lie between -2^31 and 2^31 - 1, and every pair of integers in that range,
negative ones included, is the line and column of some record. -/
theorem C7_default_location_nonnegative :
    (({} : FastLocationMetadata).LineNo.val = 0 ∧
      ({} : FastLocationMetadata).ColumnNo.val = 0) ∧
    (∀ (S : FastGlobalsMetadata) (G : GlobalVariable),
      (∀ E, (G, E) ∉ S.Entries.Buckets) →
        (S.get G).SourceLoc.LineNo.val = 0 ∧ (S.get G).SourceLoc.ColumnNo.val = 0 ∧
        0 ≤ (S.get G).SourceLoc.LineNo.val ∧ 0 ≤ (S.get G).SourceLoc.ColumnNo.val) ∧
    (∀ L : FastLocationMetadata,
      (-2147483648 ≤ L.LineNo.val ∧ L.LineNo.val < 2147483648) ∧
      (-2147483648 ≤ L.ColumnNo.val ∧ L.ColumnNo.val < 2147483648)) ∧
    (∀ (f : StringRef) (l c : Int),
      -2147483648 ≤ l ∧ l < 2147483648 → -2147483648 ≤ c ∧ c < 2147483648 →
        ∃ L : FastLocationMetadata, L.Filename = f ∧ L.LineNo.val = l ∧ L.ColumnNo.val = c) := by
  refine ⟨⟨rfl, rfl⟩, ?_, fun L => ⟨L.LineNo.inRange, L.ColumnNo.inRange⟩,
    fun f l c hl hc => ⟨⟨f, ⟨l, hl⟩, ⟨c, hc⟩⟩, rfl, rfl, rfl⟩⟩
  intro S G h
  rw [FastGlobalsMetadata.get_of_find_none S G ((DenseMap.find_eq_none_iff _ G).2 h)]
  exact ⟨rfl, rfl, le_of_eq rfl, le_of_eq rfl⟩

/-- Witness of C7 as amended: global 7 has no bucket in the example store and the source
location `get` returns for it has line 0 and column 0; and -1, -1 is in the range of the
fields and is the line and column of a record. -/
theorem C7_default_location_nonnegative_witness :
    (∀ E, ((⟨7⟩ : GlobalVariable), E) ∉ exampleStore.Entries.Buckets) ∧
    ((exampleStore.get ⟨7⟩).SourceLoc.LineNo.val = 0 ∧
      (exampleStore.get ⟨7⟩).SourceLoc.ColumnNo.val = 0 ∧
      0 ≤ (exampleStore.get ⟨7⟩).SourceLoc.LineNo.val ∧
      0 ≤ (exampleStore.get ⟨7⟩).SourceLoc.ColumnNo.val) ∧
    ((-2147483648 : Int) ≤ -1 ∧ (-1 : Int) < 2147483648) ∧
    (∃ L : FastLocationMetadata,
      L.Filename = ⟨"a.c"⟩ ∧ L.LineNo.val = -1 ∧ L.ColumnNo.val = -1) :=
  have h : ∀ E, ((⟨7⟩ : GlobalVariable), E) ∉ exampleStore.Entries.Buckets := by
    intro E hE
    simp [exampleStore, FastGlobalsMetadata.withEntry, DenseMap.set, DenseMap.eraseBuckets,
      DenseMap.empty] at hE
  have hr : (-2147483648 : Int) ≤ -1 ∧ (-1 : Int) < 2147483648 := by decide
  ⟨h, C7_default_location_nonnegative.2.1 exampleStore ⟨7⟩ h, hr,
    C7_default_location_nonnegative.2.2.2 ⟨"a.c"⟩ (-1) (-1) hr hr⟩

/-- C7 as stated fails: the record with line -1 and column -1 is a value of the record
type, so not every record has a non-negative line and column. -/
theorem C7_negative_line_representable :
    ¬ ∀ L : FastLocationMetadata, 0 ≤ L.LineNo.val ∧ 0 ≤ L.ColumnNo.val := by
  intro h
  have h1 := (h { Filename := ⟨"a.c"⟩, LineNo := ⟨-1, by decide⟩,
                  ColumnNo := ⟨-1, by decide⟩ }).1
  exact absurd h1 (by decide)

/-- C10: with no arguments, the module pass constructor and the legacy module pass factory
both get CompileKernel = false, Recover = false and a true global-GC flag, but
UseOdrIndicator is false for the constructor and true for the factory; the function pass
constructor and the function pass factory get the same three defaults, all false. -/
theorem C10_entry_point_defaults :
    (({} : ModuleFastAddressSanitizerPass.Args).CompileKernel = false ∧
      ({} : createModuleFastAddressSanitizerLegacyPassPass.Args).CompileKernel = false) ∧
    (({} : ModuleFastAddressSanitizerPass.Args).Recover = false ∧
      ({} : createModuleFastAddressSanitizerLegacyPassPass.Args).Recover = false) ∧
    (({} : ModuleFastAddressSanitizerPass.Args).UseGlobalGC = true ∧
      ({} : createModuleFastAddressSanitizerLegacyPassPass.Args).UseGlobalsGC = true) ∧
    (({} : ModuleFastAddressSanitizerPass.Args).UseOdrIndicator = false ∧
      ({} : createModuleFastAddressSanitizerLegacyPassPass.Args).UseOdrIndicator = true) ∧
    ({} : ModuleFastAddressSanitizerPass.Args).UseOdrIndicator ≠
      ({} : createModuleFastAddressSanitizerLegacyPassPass.Args).UseOdrIndicator ∧
    (({} : FastAddressSanitizerPass.Args).CompileKernel = false ∧
      ({} : createFastAddressSanitizerFunctionPass.Args).CompileKernel = false) ∧
    (({} : FastAddressSanitizerPass.Args).Recover = false ∧
      ({} : createFastAddressSanitizerFunctionPass.Args).Recover = false) ∧
    (({} : FastAddressSanitizerPass.Args).UseAfterScope = false ∧
      ({} : createFastAddressSanitizerFunctionPass.Args).UseAfterScope = false) :=
  ⟨⟨rfl, rfl⟩, ⟨rfl, rfl⟩, ⟨rfl, rfl⟩, ⟨rfl, rfl⟩, by decide, ⟨rfl, rfl⟩, ⟨rfl, rfl⟩,
    ⟨rfl, rfl⟩⟩

end llvm
